import Mathlib

/-!
Verification development for the washizu riichi-mahjong evaluation core.

The Rust sources are shallowly embedded as executable Lean definitions:

* `libriichi/src/algo/agari.rs` — the agari decomposer (`AgariCalculator`,
  `DivWorker`, `calc_fu`, `search_yakus`, and the with-names variants added
  by this repository);
* `libriichi/src/state/update.rs` — `PlayerState::update_waits_and_furiten`;
* `src/danger.rs` — the wall-danger and tile-danger classifiers;
* `libriichi/src/algo/sp/calc.rs` — the state-mutation skeleton of the
  single-player expected-value search.

Machine integers (`u8`, `u32`) are embedded as `Nat` (the embedded code never
reaches the wrap-around range on the inputs the invariants quantify over);
hand vectors `[u8; 34]` become `List Nat` indexed with `List.getD`.

The repository calls a few modules whose sources are not part of the tree
(its shanten kernel, the `sp::State` tile bookkeeping, the gzip agari-table
blob).  Those are modelled from the specification; each such definition
carries a doc comment starting with "Modelled from the spec:".
-/

namespace Washizu

/-- Hand-vector read: `tehai[t]` for a `List Nat` hand of 34 counts. -/
def tget (h : List Nat) (t : Nat) : Nat := h.getD t 0

/-- Hand-vector write: `tehai[t] = v`. -/
def tset (h : List Nat) (t v : Nat) : List Nat := h.set t v

/-- Modelled from the spec: `Tile::is_yaokyuu` (the tile algebra source file
is not in the tree): a tile is yaokyuu iff it is an honor (index ≥ 27) or a
terminal (rank 1 or 9 of a number suit). -/
def isYaokyuu (t : Nat) : Bool := 27 ≤ t || t % 9 == 0 || t % 9 == 8

/-- The result of the agari calculator: `Agari::Normal { fu, han }` or
`Agari::Yakuman(n)`. -/
inductive Agari where
  | normal (fu : Nat) (han : Nat)
  | yakuman (n : Nat)
deriving DecidableEq, Repr

/-- The order on `Agari` from `impl Ord for Agari`: every yakuman beats every
normal result; yakuman compare by multiplier; normal results compare by han,
then fu. -/
def Agari.le (a b : Agari) : Bool :=
  match a, b with
  | .yakuman l, .yakuman r => l ≤ r
  | .yakuman _, .normal _ _ => false
  | .normal _ _, .yakuman _ => true
  | .normal lf lh, .normal rf rh => lh < rh || (lh == rh && lf ≤ rf)

/-- Maximum of a list of `Agari` under `Agari.le`, mirroring
`Iterator::max` (returns `none` on an empty list, and the last maximal
element on ties, as Rust's `max` does). -/
def Agari.listMax (l : List Agari) : Option Agari :=
  l.foldl (fun acc a =>
    match acc with
    | none => some a
    | some m => if Agari.le m a then some a else some m) none

/-- Embedding of `AgariCalculator`: the full winning hand (3n+2 counts, the
winning tile already included) plus the meld context and winds.
`winning_tile` is deakaized. -/
structure ACalc where
  tehai : List Nat
  is_menzen : Bool
  chis : List Nat
  pons : List Nat
  minkans : List Nat
  ankans : List Nat
  bakaze : Nat
  jikaze : Nat
  winning_tile : Nat
  is_ron : Bool
deriving Repr

/-- One decomposition of the hand, with the `Div` indices of the Rust record
already resolved through `tile14` to tile ids (which is exactly what
`DivWorker::new` does with `pair_idx`, `kotsu_idxs` and `shuntsu_idxs`). -/
structure Div where
  pairTile : Nat
  kotsu : List Nat
  shuntsu : List Nat
  hasChitoi : Bool
  hasChuuren : Bool
  hasIttsuu : Bool
  hasRyanpeikou : Bool
  hasIpeikou : Bool
deriving DecidableEq, Repr

/-- Embedding of `DivWorker`: the calculator, the packed distinct-tile array
`tile14`, and the resolved decomposition. -/
structure DivWorker where
  sup : ACalc
  tile14 : List Nat
  div : Div
deriving Repr

/-- The distinct tiles present in the hand, in canonical order — the
`tile14` array produced by `get_tile14_and_key` (one entry per distinct
tile id with a nonzero count). -/
def tile14Of (tehai : List Nat) : List Nat :=
  (List.range 34).filter (fun t => 0 < tget tehai t)

/-- Shorthand for the worker's pair tile (`DivWorker::pair_tile`). -/
def DivWorker.pairTile (w : DivWorker) : Nat := w.div.pairTile

/-- Shorthand for the worker's concealed triplets (`menzen_kotsu`). -/
def DivWorker.menzenKotsu (w : DivWorker) : List Nat := w.div.kotsu

/-- Shorthand for the worker's concealed runs (`menzen_shuntsu`). -/
def DivWorker.menzenShuntsu (w : DivWorker) : List Nat := w.div.shuntsu

/-- Embedding of `DivWorker::winning_tile_makes_minkou` (the value the Rust
constructor stores in the field of the same name): on a ron, when the
winning tile is one of the concealed triplets and no concealed run straddles
its rank, the triplet must be demoted to an open triplet. -/
def DivWorker.winningTileMakesMinkou (w : DivWorker) : Bool :=
  if !w.sup.is_ron then false
  else if !w.menzenKotsu.contains w.sup.winning_tile then false
  else if 3 * 9 ≤ w.sup.winning_tile then true
  else
    let kind := w.sup.winning_tile / 9
    let num := w.sup.winning_tile % 9
    let low := kind * 9 + (num - 2)
    let high := kind * 9 + min num 6
    !((List.range' low (high + 1 - low)).any (fun t => w.menzenShuntsu.contains t))

/-- The seven pairs of a chiitoitsu division (`DivWorker::chitoi_pairs`):
the first seven entries of `tile14`. -/
def DivWorker.chitoiPairs (w : DivWorker) : List Nat := w.tile14.take 7

/-- All triplets and quads of the hand (`all_kotsu_and_kantsu`). -/
def DivWorker.allKotsuAndKantsu (w : DivWorker) : List Nat :=
  w.menzenKotsu ++ w.sup.pons ++ w.sup.minkans ++ w.sup.ankans

/-- All runs of the hand (`all_shuntsu`). -/
def DivWorker.allShuntsu (w : DivWorker) : List Nat :=
  w.menzenShuntsu ++ w.sup.chis

/-- All melds of the hand (`all_mentsu`). -/
def DivWorker.allMentsu (w : DivWorker) : List Nat :=
  w.allKotsuAndKantsu ++ w.allShuntsu

/-- Fu from the concealed triplets in `calc_fu` (8 or 4, halved when the
triplet is the one `winning_tile_makes_minkou` demotes). -/
def DivWorker.kotsuFuSum (w : DivWorker) : Nat :=
  (w.menzenKotsu.map (fun t =>
      let isMinkou := w.winningTileMakesMinkou && t == w.sup.winning_tile
      match isMinkou, isYaokyuu t with
      | false, true => 8
      | false, false => 4
      | true, true => 4
      | true, false => 2)).sum

/-- Fu from the pons in `calc_fu`. -/
def DivWorker.ponFuSum (w : DivWorker) : Nat :=
  (w.sup.pons.map (fun t => if isYaokyuu t then 4 else 2)).sum

/-- Fu from the concealed quads in `calc_fu`. -/
def DivWorker.ankanFuSum (w : DivWorker) : Nat :=
  (w.sup.ankans.map (fun t => if isYaokyuu t then 32 else 16)).sum

/-- Fu from the open quads in `calc_fu`. -/
def DivWorker.minkanFuSum (w : DivWorker) : Nat :=
  (w.sup.minkans.map (fun t => if isYaokyuu t then 16 else 8)).sum

/-- Fu from the pair in `calc_fu` (+2 for a dragon pair; round-wind and
seat-wind bonuses stack). -/
def DivWorker.pairFu (w : DivWorker) : Nat :=
  if w.pairTile == 31 || w.pairTile == 32 || w.pairTile == 33 then 2
  else (if w.pairTile == w.sup.bakaze then 2 else 0) +
       (if w.pairTile == w.sup.jikaze then 2 else 0)

/-- The value `fu` holds in `calc_fu` after the meld and pair additions (the
base 20 plus the five sums above). -/
def DivWorker.baseFu (w : DivWorker) : Nat :=
  20 + w.kotsuFuSum + w.ponFuSum + w.ankanFuSum + w.minkanFuSum + w.pairFu

/-- The kanchan/penchan wait test of `calc_fu`. -/
def DivWorker.isKanchanPenchan (w : DivWorker) : Bool :=
  w.menzenShuntsu.any (fun s =>
    s + 1 == w.sup.winning_tile
    || (s % 9 == 0 && s + 2 == w.sup.winning_tile)
    || (s % 9 == 6 && s == w.sup.winning_tile))

/-- Embedding of `DivWorker::calc_fu`, assembled from the named summands
above in source order. -/
def DivWorker.calcFu (w : DivWorker) (hasPinfu : Bool) : Nat :=
  if w.div.hasChitoi then 25 else
  if w.baseFu == 20 then
    (if !w.sup.is_menzen then 30
     else if hasPinfu then (if w.sup.is_ron then 30 else 20)
     else if w.sup.is_ron then 40
     else 30)
  else
  let fu6 := if !w.sup.is_ron then w.baseFu + 2
             else if w.sup.is_menzen then w.baseFu + 10
             else w.baseFu
  let fu7 :=
    if !w.winningTileMakesMinkou then
      if w.pairTile == w.sup.winning_tile then fu6 + 2
      else if w.isKanchanPenchan then fu6 + 2 else fu6
    else fu6
  ((fu7 - 1) / 10 + 1) * 10

/-- Embedding of the `has_pinfu` condition computed at the start of
`DivWorker::search_yakus`: four concealed runs, a pair that is neither a
dragon nor the round/seat wind, and a two-sided (ryanmen) wait on the
winning tile. -/
def DivWorker.hasPinfuW (w : DivWorker) : Bool :=
  w.menzenShuntsu.length == 4
  && !(w.pairTile == 31 || w.pairTile == 32 || w.pairTile == 33)
  && w.pairTile != w.sup.bakaze && w.pairTile != w.sup.jikaze
  && w.menzenShuntsu.any (fun s =>
      let num := s % 9 + 1
      (num ≤ 6 && s == w.sup.winning_tile)
      || (2 ≤ num && s + 2 == w.sup.winning_tile))

/-- Embedding of the `has_tanyao` condition of `search_yakus`. -/
def DivWorker.hasTanyaoW (w : DivWorker) : Bool :=
  if w.div.hasChitoi then
    w.chitoiPairs.all (fun t => t / 9 < 3 && 0 < t % 9 && t % 9 < 8)
  else
    w.allShuntsu.all (fun s => 0 < s % 9 && s % 9 < 6)
    && (w.allKotsuAndKantsu ++ [w.pairTile]).all
        (fun k => k / 9 < 3 && 0 < k % 9 && k % 9 < 8)

/-- Embedding of the `has_toitoi` condition of `search_yakus`. -/
def DivWorker.hasToitoiW (w : DivWorker) : Bool :=
  !w.div.hasChitoi && w.menzenShuntsu.isEmpty && w.sup.chis.isEmpty

/-- The `take_while(iter_fn)` scan of `search_yakus` that classifies the flush
state of the hand.  It walks the meld/pair list with the mutable state
`(isou_kind, has_jihai, is_chinitsu_or_honitsu)` of the Rust closure and
stops at the first mismatching suit, exactly as `take_while` does. -/
def isouScan : List Nat → Option Nat → Bool → (Option Nat × Bool × Bool)
  | [], k, j => (k, j, true)
  | m :: rest, k, j =>
    if 3 ≤ m / 9 then isouScan rest k true
    else
      match k with
      | some pk => if pk != m / 9 then (k, j, false) else isouScan rest k j
      | none => isouScan rest (some (m / 9)) j

/-- The list the flush scan walks: the chiitoitsu pairs, or all melds plus
the pair. -/
def DivWorker.isouInput (w : DivWorker) : List Nat :=
  if w.div.hasChitoi then w.chitoiPairs else w.allMentsu ++ [w.pairTile]

/-- Result of the flush scan for this worker. -/
def DivWorker.isouResult (w : DivWorker) : Option Nat × Bool × Bool :=
  isouScan w.isouInput none false

/-- First-duplicate detection over the concealed runs, equivalent to the
`shuntsu_marks` bit-array walk of the ankan-aware iipeikou fallback in
`search_yakus` (the bit for `(kind, num)` is set iff the same run value was
seen before, so `any` fires exactly on a repeated run). -/
def hasDupRun : List Nat → List Nat → Bool
  | [], _ => false
  | t :: rest, seen => if seen.contains t then true else hasDupRun rest (t :: seen)

/-- Iipeikou han of `search_yakus` (non-chiitoitsu path): the table flag, or
the recomputation that is needed when the hand holds an ankan. -/
def DivWorker.ipeikouHan (w : DivWorker) : Nat :=
  if w.div.hasIpeikou then 1
  else if !w.sup.ankans.isEmpty && w.sup.is_menzen
      && 2 ≤ w.menzenShuntsu.length && hasDupRun w.menzenShuntsu [] then 1
  else 0

/-- The `kinds` bit array of the shape-based ittsuu fallback: bit 0/1/2 of
entry `kind` is set when that suit has a run starting at rank 1/4/7. -/
def DivWorker.ittsuuKinds (w : DivWorker) : List Nat :=
  w.allShuntsu.foldl (fun acc s =>
    let kind := s / 9
    let num := s % 9
    if num == 0 then acc.set kind (acc.getD kind 0 ||| 1)
    else if num == 3 then acc.set kind (acc.getD kind 0 ||| 2)
    else if num == 6 then acc.set kind (acc.getD kind 0 ||| 4)
    else acc) [0, 0, 0]

/-- Ittsuu han of `search_yakus`: the table flag (2 closed, 1 open), or the
shape-based fallback worth 1. -/
def DivWorker.ittsuuHan (w : DivWorker) : Nat :=
  if w.sup.is_menzen && w.div.hasIttsuu then 2
  else if w.sup.chis.isEmpty && w.div.hasIttsuu then 1
  else if 3 ≤ w.menzenShuntsu.length + w.sup.chis.length then
    (if (w.ittsuuKinds).contains 7 then 1 else 0)
  else 0

/-- The `s_counter` array of `search_yakus`: for each rank, the set of suits
holding a run starting at that rank, as a 3-bit mask. -/
def DivWorker.sCounter (w : DivWorker) : List Nat :=
  w.allShuntsu.foldl (fun acc s =>
    let kind := s / 9
    let num := s % 9
    acc.set num (acc.getD num 0 ||| (1 <<< kind))) [0, 0, 0, 0, 0, 0, 0, 0, 0]

/-- The `k_counter` array of `search_yakus`: for each rank, the set of suits
holding a triplet/quad of that rank. -/
def DivWorker.kCounter (w : DivWorker) : List Nat :=
  w.allKotsuAndKantsu.foldl (fun acc k =>
    let kind := k / 9
    if kind < 3 then
      let num := k % 9
      acc.set num (acc.getD num 0 ||| (1 <<< kind))
    else acc) [0, 0, 0, 0, 0, 0, 0, 0, 0]

/-- Sanshoku han of `search_yakus`: doujun (2 closed / 1 open), otherwise
doukou (2). -/
def DivWorker.sanshokuHan (w : DivWorker) : Nat :=
  if (w.sCounter).contains 7 then (if w.sup.is_menzen then 2 else 1)
  else if (w.kCounter).contains 7 then 2
  else 0

/-- The `ankous_count` of `search_yakus`: concealed quads plus concealed
triplets, minus the triplet demoted by `winning_tile_makes_minkou`. -/
def DivWorker.ankousCount (w : DivWorker) : Nat :=
  w.sup.ankans.length + w.menzenKotsu.length
    - (if w.winningTileMakesMinkou then 1 else 0)

/-- The `kans_count` of `search_yakus`. -/
def DivWorker.kansCount (w : DivWorker) : Nat :=
  w.sup.ankans.length + w.sup.minkans.length

/-- The `has_ryuisou` condition of `search_yakus` (all-green). -/
def DivWorker.hasRyuisou (w : DivWorker) : Bool :=
  (w.allKotsuAndKantsu ++ [w.pairTile]).all
    (fun k => k == 19 || k == 20 || k == 21 || k == 23 || k == 25 || k == 32)
  && w.allShuntsu.all (fun s => s == 19)

/-- The `has_jihai` honor-presence array of the yakuhai block (one flag per
honor tile E S W N P F C). -/
def DivWorker.jihaiFlags (w : DivWorker) : List Bool :=
  w.allKotsuAndKantsu.foldl (fun acc k =>
    if 3 * 9 ≤ k then acc.set (k - 3 * 9) true else acc)
    [false, false, false, false, false, false, false]

/-- Number of dragon triplets (`saneins` in `search_yakus`). -/
def DivWorker.saneins (w : DivWorker) : Nat :=
  ((List.range 3).filter (fun i => (w.jihaiFlags).getD (4 + i) false)).length

/-- Number of wind triplets (`winds` in `search_yakus`). -/
def DivWorker.windsCount (w : DivWorker) : Nat :=
  ((List.range 4).filter (fun i => (w.jihaiFlags).getD i false)).length

/-- Han from the yakuhai block of `search_yakus` (round wind, seat wind,
dragons, shousangen); guarded by `!has_tanyao` at the call site. -/
def DivWorker.yakuhaiHan (w : DivWorker) : Nat :=
  (if (w.jihaiFlags).getD (w.sup.bakaze - 3 * 9) false then 1 else 0)
  + (if (w.jihaiFlags).getD (w.sup.jikaze - 3 * 9) false then 1 else 0)
  + w.saneins
  + (if w.saneins == 2
        && (w.pairTile == 31 || w.pairTile == 32 || w.pairTile == 33)
     then 2 else 0)

/-- The list the terminal/honor (chanta family) block walks. -/
def DivWorker.yaokyuuInput (w : DivWorker) : List Nat :=
  if w.div.hasChitoi then w.chitoiPairs else w.allKotsuAndKantsu ++ [w.pairTile]

/-- The `is_junchan_or_chanta_or_chinroutou_or_honroutou` test: every walked
tile is a terminal or honor.  (The Rust closure also records `has_jihai`
while walking; since `all` only short-circuits on failure, that flag is read
only when every tile passed, where it equals "some honor is present" —
see `yaokyuuInputHasJihai`.) -/
def DivWorker.isJunchanFamily (w : DivWorker) : Bool :=
  w.yaokyuuInput.all isYaokyuu

/-- Honor presence among the walked tiles, the value `has_jihai` has in the
chanta-family block whenever `isJunchanFamily` holds. -/
def DivWorker.yaokyuuInputHasJihai (w : DivWorker) : Bool :=
  w.yaokyuuInput.any (fun k => 3 ≤ k / 9)

/-- Han from the chanta-family block of `search_yakus` (honroutou, chanta,
junchan); guarded by `!has_tanyao` at the call site. -/
def DivWorker.chantaHan (w : DivWorker) : Nat :=
  if w.isJunchanFamily then
    if w.div.hasChitoi || w.hasToitoiW then
      if w.yaokyuuInputHasJihai then 2 else 0
    else if w.allShuntsu.all (fun s => s % 9 == 0 || s % 9 == 6) then
      (if w.yaokyuuInputHasJihai then 1 else 2)
        + (if w.sup.is_menzen then 1 else 0)
    else 0
  else 0

/-- Yakuman from the chanta-family block (chinroutou): all walked tiles are
terminals, in a chiitoitsu or toitoi shape, with no honors. -/
def DivWorker.chinroutouYakuman (w : DivWorker) : Nat :=
  if w.isJunchanFamily && (w.div.hasChitoi || w.hasToitoiW)
      && !w.yaokyuuInputHasJihai then 1 else 0

/-- Total han accumulated by `DivWorker::search_yakus` (both variants add
identical han; they differ only in yakuman counting). The summands appear in
the order of the source blocks. -/
def DivWorker.hanTotal (w : DivWorker) : Nat :=
  (if w.hasPinfuW then 1 else 0)
  + (if w.div.hasChitoi then 2 else 0)
  + (if w.div.hasRyanpeikou then 3 else 0)
  + (if w.hasTanyaoW then 1 else 0)
  + (if w.hasToitoiW then 2 else 0)
  + (if (w.isouResult).1 == none then 0
     else if (w.isouResult).2.2 then
       (if (w.isouResult).2.1 then 2 else 5) + (if w.sup.is_menzen then 1 else 0)
     else 0)
  + (if w.div.hasChitoi then 0 else
      w.ipeikouHan
      + w.ittsuuHan
      + w.sanshokuHan
      + (if w.ankousCount == 3 then 2 else 0)
      + (if w.kansCount == 3 then 2 else 0)
      + (if w.hasTanyaoW then 0 else w.yakuhaiHan))
  + (if w.hasTanyaoW then 0 else w.chantaHan)

/-- Total yakuman accumulated by `DivWorker::search_yakus` (the plain
variant: chuuren, suuankou and daisuushii each count 1). -/
def DivWorker.yakumanTotal (w : DivWorker) : Nat :=
  (if w.div.hasChuuren then 1 else 0)
  + (if (w.isouResult).1 == none then 1 else 0)
  + (if w.div.hasChitoi then 0 else
      (if w.ankousCount == 4 then 1 else 0)
      + (if w.kansCount == 4 then 1 else 0)
      + (if w.hasRyuisou then 1 else 0)
      + (if w.hasTanyaoW then 0 else
          (if w.saneins == 3 then 1 else 0)
          + (if w.windsCount == 4 then 1
             else if w.windsCount == 3
                 && (27 ≤ w.pairTile && w.pairTile ≤ 30) then 1
             else 0)))
  + (if w.hasTanyaoW then 0 else w.chinroutouYakuman)

/-- Total yakuman accumulated by the with-names variant
`DivWorkerWithNames::search_yakus_with_names`: chuuren with a 9-gate wait,
suuankou tanki, and daisuushii count double. -/
def DivWorker.yakumanTotalNames (w : DivWorker) : Nat :=
  (if w.div.hasChuuren then
     (if tget w.sup.tehai w.sup.winning_tile == 2
         || tget w.sup.tehai w.sup.winning_tile == 4 then 2 else 1)
   else 0)
  + (if (w.isouResult).1 == none then 1 else 0)
  + (if w.div.hasChitoi then 0 else
      (if w.ankousCount == 4 then
         (if tget w.sup.tehai w.sup.winning_tile == 2 then 2 else 1)
       else 0)
      + (if w.kansCount == 4 then 1 else 0)
      + (if w.hasRyuisou then 1 else 0)
      + (if w.hasTanyaoW then 0 else
          (if w.saneins == 3 then 1 else 0)
          + (if w.windsCount == 4 then 2
             else if w.windsCount == 3
                 && (27 ≤ w.pairTile && w.pairTile ≤ 30) then 1
             else 0)))
  + (if w.hasTanyaoW then 0 else w.chinroutouYakuman)

/-- Embedding of `DivWorker::search_yakus::<false>` (the exhaustive search):
the accumulated totals fed through `make_return!`, where a han count of 5 or
more skips the fu computation. -/
def DivWorker.searchYakusDiv (w : DivWorker) : Option Agari :=
  if 0 < w.yakumanTotal then some (.yakuman w.yakumanTotal)
  else if 0 < w.hanTotal then
    some (.normal (if 5 ≤ w.hanTotal then 0 else w.calcFu w.hasPinfuW) w.hanTotal)
  else none

/-- Embedding of `DivWorkerWithNames::search_yakus_with_names`, dropping the
yaku-name strings (they do not influence the returned `Agari`).  Unlike the
plain variant it always computes the fu. -/
def DivWorker.searchYakusNamesDiv (w : DivWorker) : Option Agari :=
  if 0 < w.yakumanTotalNames then some (.yakuman w.yakumanTotalNames)
  else if 0 < w.hanTotal then
    some (.normal (w.calcFu w.hasPinfuW) w.hanTotal)
  else none

/-- Decrement a hand-vector entry by one. -/
def tdec (c : List Nat) (i : Nat) : List Nat := tset c i (tget c i - 1)

/-- Modelled from the spec: the regular-form shanten search of the shanten
kernel (`shanten::calc_all`; the kernel source file is not in the tree).  It
performs the standard recursive partition: walking the 34 buckets in order,
at each bucket it may take triplets, runs, the head pair, partial pairs and
partial runs, or leave the remaining copies as floaters, and takes the
minimum of the distance formula over all decompositions with at most `k`
melds-plus-partials and one head.  `fuel` only bounds the recursion; every
call site supplies more fuel than the walk can consume (each step advances
the bucket index or removes a tile), so the exhausted-fuel value 99 is never
reached. -/
def regSearch : Nat → List Nat → Nat → Nat → Nat → Bool → Nat → Int
  | 0, _, _, _, _, _, _ => 99
  | fuel + 1, c, idx, m, d, h, k =>
    if 34 ≤ idx then
      2 * ((k : Int) - (m : Int)) - (d : Int) - (if h then 1 else 0)
    else
      let cnt := tget c idx
      if cnt == 0 then regSearch fuel c (idx + 1) m d h k
      else
        let base := regSearch fuel c (idx + 1) m d h k
        let o1 : List Int :=
          if 3 ≤ cnt ∧ m < k then
            [regSearch fuel (tset c idx (cnt - 3)) idx (m + 1) d h k]
          else []
        let o2 : List Int :=
          if m < k ∧ idx < 27 ∧ idx % 9 ≤ 6
              ∧ 0 < tget c (idx + 1) ∧ 0 < tget c (idx + 2) then
            [regSearch fuel (tdec (tdec (tset c idx (cnt - 1)) (idx + 1)) (idx + 2))
              idx (m + 1) d h k]
          else []
        let o3 : List Int :=
          if ¬ h ∧ 2 ≤ cnt then
            [regSearch fuel (tset c idx (cnt - 2)) idx m d true k]
          else []
        let o4 : List Int :=
          if m + d < k ∧ 2 ≤ cnt then
            [regSearch fuel (tset c idx (cnt - 2)) idx m (d + 1) h k]
          else []
        let o5 : List Int :=
          if m + d < k ∧ idx < 27 ∧ idx % 9 ≤ 7 ∧ 0 < tget c (idx + 1) then
            [regSearch fuel (tdec (tset c idx (cnt - 1)) (idx + 1)) idx m (d + 1) h k]
          else []
        let o6 : List Int :=
          if m + d < k ∧ idx < 27 ∧ idx % 9 ≤ 6 ∧ 0 < tget c (idx + 2) then
            [regSearch fuel (tdec (tset c idx (cnt - 1)) (idx + 2)) idx m (d + 1) h k]
          else []
        (o1 ++ o2 ++ o3 ++ o4 ++ o5 ++ o6).foldl min base

/-- Modelled from the spec: regular-form shanten for a hand with `k` melds
still to complete. -/
def calcRegular (c : List Nat) (k : Nat) : Int :=
  regSearch 64 c 0 0 0 false k

/-- Modelled from the spec: chiitoitsu shanten, counted over pair
occurrences and distinct kinds. -/
def calcChiitoi (c : List Nat) : Int :=
  let pairs := ((List.range 34).filter (fun t => 2 ≤ tget c t)).length
  let kinds := ((List.range 34).filter (fun t => 1 ≤ tget c t)).length
  6 - (pairs : Int) + (if kinds < 7 then ((7 - kinds : Nat) : Int) else 0)

/-- The thirteen yaokyuu tile ids. -/
def yaokyuuTiles : List Nat :=
  [0, 8, 9, 17, 18, 26, 27, 28, 29, 30, 31, 32, 33]

/-- Modelled from the spec: `shanten::calc_kokushi` — distance to
kokushi-musou, `-1` exactly when all 13 orphan tiles are present with one of
them paired. -/
def calcKokushi (c : List Nat) : Int :=
  let kinds := (yaokyuuTiles.filter (fun t => 1 ≤ tget c t)).length
  let hasPair := yaokyuuTiles.any (fun t => 2 ≤ tget c t)
  13 - (kinds : Int) - (if hasPair then 1 else 0)

/-- Modelled from the spec: `shanten::calc_all` — the minimum of the three
shapes, with chiitoitsu and kokushi considered only for a full 4-meld
hand. -/
def calcAll (c : List Nat) (lenDiv3 : Nat) : Int :=
  if lenDiv3 == 4 then
    min (calcRegular c 4) (min (calcChiitoi c) (calcKokushi c))
  else calcRegular c lenDiv3

/-- Modelled from the spec: the regular decompositions of the hand that
remains after removing the pair — every way of partitioning the counts from
bucket `idx` on into triplets and runs (the agari table ships this
enumeration as a precomputed gzip blob, which is not in the tree).  At each
bucket the number of triplets of that tile is chosen and the leftover copies
must start runs.  Returns the list of (kotsu, shuntsu) pairs. -/
def meldPartsGo : Nat → List Nat → Nat → List (List Nat × List Nat)
  | 0, _, _ => [([], [])]
  | rem + 1, c, idx =>
    let cnt := tget c idx
    (List.range (cnt / 3 + 1)).flatMap (fun t =>
      let r := cnt - 3 * t
      if r == 0 then
        (meldPartsGo rem c (idx + 1)).map
          (fun ks => (List.replicate t idx ++ ks.1, ks.2))
      else if idx < 27 ∧ idx % 9 ≤ 6
          ∧ r ≤ tget c (idx + 1) ∧ r ≤ tget c (idx + 2) then
        let c' := tset (tset c (idx + 1) (tget c (idx + 1) - r))
          (idx + 2) (tget c (idx + 2) - r)
        (meldPartsGo rem c' (idx + 1)).map
          (fun ks => (List.replicate t idx ++ ks.1, List.replicate r idx ++ ks.2))
      else [])

/-- The walk over all 34 buckets (the structural counter counts the buckets
still to visit, so the walk ends exactly at bucket 34). -/
def meldParts (c : List Nat) (idx : Nat) : List (List Nat × List Nat) :=
  meldPartsGo (34 - idx) c idx

/-- Modelled from the spec: the ittsuu flag of a packed `Div` — some suit
contributes the runs 123, 456 and 789. -/
def ittsuuFlag (ss : List Nat) : Bool :=
  (List.range 3).any (fun k =>
    ss.contains (9 * k) && ss.contains (9 * k + 3) && ss.contains (9 * k + 6))

/-- Number of identical-run pairs among the runs of a decomposition. -/
def dupRunPairs (ss : List Nat) : Nat :=
  ((ss.dedup).map (fun t => ss.count t / 2)).sum

/-- Modelled from the spec: the chuuren flag of a `Div` — the hand is a
single-suit 3-1-1-1-1-1-1-1-3 pattern plus one extra tile of that suit. -/
def chuurenShape (tehai : List Nat) : Bool :=
  (List.range 3).any (fun k =>
    (List.range 34).all (fun t =>
      decide (9 * k ≤ t ∧ t < 9 * k + 9) || tget tehai t == 0)
    && 3 ≤ tget tehai (9 * k) && 3 ≤ tget tehai (9 * k + 8)
    && (List.range 7).all (fun j => 1 ≤ tget tehai (9 * k + 1 + j)))

/-- Modelled from the spec: the chiitoitsu hand shape — exactly seven
distinct tiles, each appearing exactly twice. -/
def chitoiShape (tehai : List Nat) : Bool :=
  (List.range 34).all (fun t => tget tehai t == 0 || tget tehai t == 2)
  && ((List.range 34).filter (fun t => tget tehai t == 2)).length == 7

/-- Modelled from the spec: the decomposition list `AGARI_TABLE` associates
with a hand shape — every choice of pair plus partition of the rest into
triplets and runs, with the five shape flags of §3.5, plus the chiitoitsu
entry for a seven-pair hand.  An empty result corresponds to the key being
absent from the table.  The shape flags are carried only by full 14-tile
keys: for smaller keys (hands holding melds) the consumer recomputes the
yaku from shape, which is what the iipeikou-under-ankan fallback and the
third ittsuu branch of `search_yakus` are for (and what the Rust test for
the open hand 22334m+33p+two-2s-chis, expecting one single han, pins
down). -/
def agariDivs (tehai : List Nat) : List Div :=
  ((List.range 34).flatMap (fun p =>
    if 2 ≤ tget tehai p then
      (meldParts (tset tehai p (tget tehai p - 2)) 0).map (fun ks =>
        let full := tehai.sum == 14
        { pairTile := p
          kotsu := ks.1
          shuntsu := ks.2
          hasChitoi := false
          hasChuuren := full && chuurenShape tehai
          hasIttsuu := full && ittsuuFlag ks.2
          hasRyanpeikou := full && 2 ≤ dupRunPairs ks.2
          hasIpeikou := full && dupRunPairs ks.2 == 1 })
    else []))
  ++ (if chitoiShape tehai then
        [{ pairTile := (tile14Of tehai).getD 0 0
           kotsu := []
           shuntsu := []
           hasChitoi := true
           hasChuuren := false
           hasIttsuu := false
           hasRyanpeikou := false
           hasIpeikou := false }]
      else [])

/-- Worker construction, as `DivWorker::new` resolves a `Div` against the
calculator and the `tile14` array. -/
def mkWorker (a : ACalc) (d : Div) : DivWorker :=
  { sup := a, tile14 := tile14Of a.tehai, div := d }

/-- Embedding of `AgariCalculator::search_yakus_impl(false)`: the kokushi
short-circuit (a concealed hand that `calc_kokushi` reports complete is a
plain `Yakuman(1)`), then the maximum `search_yakus` result over the table
divisions.  The `assert_eq!` tying `is_menzen` to the emptiness of the call
lists is a precondition carried by the theorems. -/
def ACalc.searchYakus (a : ACalc) : Option Agari :=
  if a.is_menzen && calcKokushi a.tehai == -1 then some (.yakuman 1)
  else
    Agari.listMax
      (((agariDivs a.tehai).map (fun d => (mkWorker a d).searchYakusDiv)).reduceOption)

/-- Embedding of `AgariCaculatorWithYaku::search_yakus_with_names` (names
dropped): the kokushi short-circuit distinguishes the thirteen-wait shape by
the winning tile having count 2 in the final hand, and the division search
uses the with-names worker variant (`max_by_key` on the `Agari`). -/
def ACalc.searchYakusWithNames (a : ACalc) : Option Agari :=
  if a.is_menzen && calcKokushi a.tehai == -1 then
    (if tget a.tehai a.winning_tile == 2 then some (.yakuman 2)
     else some (.yakuman 1))
  else
    Agari.listMax
      (((agariDivs a.tehai).map (fun d => (mkWorker a d).searchYakusNamesDiv)).reduceOption)

/-- Embedding of `AgariCalculator::agari`: yaku found → add the external hans
and doras; otherwise `None` for zero external hans, a fu-0 result at mangan
or better, else the best fu over all divisions with `han = additional +
doras`. -/
def ACalc.agari (a : ACalc) (additionalHans doras : Nat) : Option Agari :=
  match a.searchYakus with
  | some (.normal fu han) => some (.normal fu (han + additionalHans + doras))
  | some y => some y
  | none =>
    if additionalHans == 0 then none
    else if 5 ≤ additionalHans + doras then
      some (.normal 0 (additionalHans + doras))
    else
      match ((agariDivs a.tehai).map (fun d => (mkWorker a d).calcFu false)).max? with
      | some fu => some (.normal fu (additionalHans + doras))
      | none => none

/-- The `WallDangerType` enum of `danger.rs`. -/
inductive WallDanger where
  | noInfo
  | doubleNoChance
  | noChance
  | doubleOneChance
  | mixedOneChance
  | oneChance
deriving DecidableEq, Repr

/-- Embedding of `calculate_wall_danger` for one suit tile, as a function of
its suit's rank slice: the Rust function runs four sequential passes over
the result array (OneChance family, then NoChance, then wall-based
DoubleNoChance, then safe-tile DoubleNoChance), each writing any given index
at most once and each reading only `tiles`/`safe_tiles`, never the result;
hence the final array entry is decided by the last pass whose condition
holds, which is what `wallDangerRank` below expresses over the four named
passes.  Throughout, `t r` is the unseen count of rank `r` (0-based) of the
tile's suit and `s r` the safe flag.  This is the first pass. -/
def ocPass (t : Nat → Nat) (j : Nat) : WallDanger :=
  if j < 3 then
    if t (j + 1) == 1 && t (j + 2) == 1 then .doubleOneChance
    else if t (j + 1) == 1 || t (j + 2) == 1 then .oneChance
    else .noInfo
  else if j < 6 then
    if (t (j - 2) == 1 || t (j - 1) == 1) && (t (j + 1) == 1 || t (j + 2) == 1) then
      if t (j - 2) == 1 && t (j - 1) == 1 && t (j + 1) == 1 && t (j + 2) == 1 then
        .doubleOneChance
      else if (t (j - 2) == 1 && t (j - 1) == 1)
          || (t (j + 1) == 1 && t (j + 2) == 1) then .mixedOneChance
      else .oneChance
    else .noInfo
  else
    if t (j - 2) == 1 && t (j - 1) == 1 then .doubleOneChance
    else if t (j - 2) == 1 || t (j - 1) == 1 then .oneChance
    else .noInfo

/-- The second pass of `calculate_wall_danger`: the NoChance condition. -/
def ncPassCond (t : Nat → Nat) (j : Nat) : Bool :=
  if j < 3 then t (j + 1) == 0 || t (j + 2) == 0
  else if j < 6 then
    (t (j - 2) == 0 || t (j - 1) == 0) && (t (j + 1) == 0 || t (j + 2) == 0)
  else t (j - 2) == 0 || t (j - 1) == 0

/-- The third pass of `calculate_wall_danger`: the wall-based DoubleNoChance
condition. -/
def dncPassCond (t : Nat → Nat) (j : Nat) : Bool :=
  if j == 0 then t 1 == 0 || t 2 == 0
  else if j == 1 then t 2 == 0 || (t 0 == 0 && t 3 == 0)
  else if 2 ≤ j ∧ j ≤ 6 then
    (t (j - 2) == 0 && t (j + 1) == 0)
    || (t (j - 1) == 0 && t (j + 1) == 0)
    || (t (j - 1) == 0 && t (j + 2) == 0)
  else if j == 7 then t 6 == 0 || (t 5 == 0 && t 8 == 0)
  else t 6 == 0 || t 7 == 0

/-- The fourth pass of `calculate_wall_danger`: the safe-tile-assisted
DoubleNoChance condition. -/
def safeDncPassCond (t : Nat → Nat) (s : Nat → Bool) (j : Nat) : Bool :=
  if 1 ≤ j ∧ j < 3 then t (j - 1) == 0 && s (j + 3)
  else if 3 ≤ j ∧ j < 6 then
    (t (j - 1) == 0 && s (j + 3)) || (t (j + 1) == 0 && s (j - 3))
  else if 6 ≤ j ∧ j < 8 then t (j + 1) == 0 && s (j - 3)
  else false

/-- The classification a suit rank ends up with: the last applicable pass of
the four (the first pass is the `ocPass` function above). -/
def wallDangerRank (t : Nat → Nat) (s : Nat → Bool) (j : Nat) : WallDanger :=
  if safeDncPassCond t s j then .doubleNoChance
  else if dncPassCond t j then .doubleNoChance
  else if ncPassCond t j then .noChance
  else ocPass t j

/-- Embedding of `calculate_wall_danger` at one index of the 34-entry result
array: suit tiles route to `wallDangerRank` on their suit slice; honors are
never assigned and remain `None`. -/
def calculateWallDangerAt (tiles : List Nat) (safe : List Bool) (idx : Nat) :
    WallDanger :=
  if idx < 27 then
    wallDangerRank (fun r => tget tiles (9 * (idx / 9) + r))
      (fun r => safe.getD (9 * (idx / 9) + r) false) (idx % 9)
  else .noInfo

/-- Embedding of `calculate_general_wall_danger`: wall danger with no
accumulated safe tiles. -/
def calculateGeneralWallDangerAt (tiles : List Nat) (idx : Nat) : WallDanger :=
  calculateWallDangerAt tiles (List.replicate 34 false) idx

/-- The suit-mirrored unseen-count vector: within each number suit the count
of rank r is swapped with the count of rank 10−r; honors unchanged. -/
def mirrorSuits (tiles : List Nat) : List Nat :=
  (List.range 34).map (fun t =>
    if t < 27 then tget tiles (9 * (t / 9) + (8 - t % 9)) else tget tiles t)

/-- The `DangerType` enum of `danger.rs`. -/
inductive DangerType where
  | noSuji5
  | noSuji46
  | noSuji37
  | noSuji28
  | noSuji19
  | halfSuji5
  | halfSuji46A
  | halfSuji46B
  | suji37
  | suji28
  | suji19
  | doubleSuji5
  | doubleSuji46
  | yakuHaiLeft3
  | yakuHaiLeft2
  | yakuHaiLeft1
  | otakazeLeft3
  | otakazeLeft2
  | otakazeLeft1
  | safe
deriving DecidableEq, Repr

/-- The `SUHAI_DANGER_TYPE_TABLE` constant, row per rank. -/
def suhaiDangerTypeTable : List (List DangerType) :=
  [[.noSuji19, .suji19],
   [.noSuji28, .suji28],
   [.noSuji37, .suji37],
   [.noSuji46, .halfSuji46B, .halfSuji46A, .doubleSuji46],
   [.noSuji5, .halfSuji5, .halfSuji5, .doubleSuji5],
   [.noSuji46, .halfSuji46A, .halfSuji46B, .doubleSuji46],
   [.noSuji37, .suji37],
   [.noSuji28, .suji28],
   [.noSuji19, .suji19]]

/-- Table lookup `SUHAI_DANGER_TYPE_TABLE[num][i]` (every reachable access
is in range; the default is never produced). -/
def suhaiLookup (num i : Nat) : DangerType :=
  (suhaiDangerTypeTable.getD num []).getD i .safe

/-- The `JIHAI_DANGER_TYPE_TABLE` constant. -/
def jihaiDangerTypeTable : List (List DangerType) :=
  [[.otakazeLeft1, .otakazeLeft2, .otakazeLeft3, .otakazeLeft3],
   [.yakuHaiLeft1, .yakuHaiLeft2, .yakuHaiLeft3, .yakuHaiLeft3]]

/-- Table lookup `JIHAI_DANGER_TYPE_TABLE[yakuhai][left-1]`. -/
def jihaiLookup (yakuhai : Bool) (i : Nat) : DangerType :=
  ((jihaiDangerTypeTable.getD (if yakuhai then 1 else 0) []).getD i .safe)

/-- The `low_risk_tiles` vector of `calculate_tile_danger`: the safe tiles
plus every tile whose wall danger is DoubleNoChance or NoChance. -/
def lowRiskTiles (safeTiles : List Bool) (leftTiles : List Nat) : List Bool :=
  (List.range 34).map (fun tile =>
    safeTiles.getD tile false
    || (match calculateWallDangerAt leftTiles safeTiles tile with
        | .doubleNoChance => true
        | .noChance => true
        | _ => false))

/-- Embedding of the suit-tile classification loop of
`calculate_tile_danger` (the value written into `danger[9*kind + num]`
before the later overwrite passes).  Note that the first branch tests
`safe_tiles[num + 3]` — the rank, not the tile index — exactly as the source
does, and that the middle branch of the 6..9 arm repeats the literal guard
`num == 2` of the source. -/
def sujiStage (safeTiles : List Bool) (leftTiles : List Nat)
    (lowRisk : List Bool) (kind num : Nat) : DangerType :=
  let tile := 9 * kind + num
  if num < 3 then
    if num == 0 && safeTiles.getD (num + 3) false && tget leftTiles tile == 0 then
      .safe
    else if num == 2 && tget leftTiles (tile + 2) == 0 then .suji37
    else suhaiLookup num (if lowRisk.getD (tile + 3) false then 1 else 0)
  else if num < 6 then
    suhaiLookup num
      ((if lowRisk.getD (tile - 3) false then 2 else 0)
        + (if lowRisk.getD (tile + 3) false then 1 else 0))
  else
    if num == 8 && safeTiles.getD (tile - 3) false && tget leftTiles tile == 0 then
      .safe
    else if num == 2 && tget leftTiles (tile + 2) == 0 then .suji37
    else suhaiLookup num (if lowRisk.getD (tile + 3) false then 1 else 0)

/-- Embedding of the `DangerType` entry `calculate_tile_danger` ends up with
for each tile: the suit/honor classification, then the
DoubleNoChance-exhausted overwrite (suit tiles only), then the genbutsu
overwrite.  Each overwrite pass writes an index at most once, so the final
array entry is the last applicable assignment. -/
def calculateTileDangerTypeAt (safeTiles : List Bool) (leftTiles : List Nat)
    (roundWind playerWind tile : Nat) : DangerType :=
  if safeTiles.getD tile false then .safe
  else if tile < 27 then
    if (match calculateWallDangerAt leftTiles safeTiles tile with
        | .doubleNoChance => true
        | _ => false) && tget leftTiles tile == 0 then .safe
    else sujiStage safeTiles leftTiles (lowRiskTiles safeTiles leftTiles)
      (tile / 9) (tile % 9)
  else if tile < 34 then
    if tget leftTiles tile == 0 then .safe
    else jihaiLookup (tile == roundWind || tile == playerWind)
      (tget leftTiles tile - 1)
  else .safe

/-- The slice of `PlayerState` read and written by
`update_waits_and_furiten`. -/
structure PState where
  tehai : List Nat
  tehaiLenDiv3 : Nat
  shanten : Int
  waits : List Bool
  atFuriten : Bool
  discardedTiles : List Bool
  tilesSeen : List Nat
  canDiscard : Bool
deriving Repr

/-- Embedding of `PlayerState::update_waits_and_furiten`.  The Rust function
asserts `!can_discard` (the hand is 3n+1); the theorems carry that as a
precondition.  It clears the furiten flag and the waits, returns early when
`shanten > 0`, and otherwise walks all 34 tiles: a tile already held four
times is skipped; for any other tile whose addition makes the hand complete
(`calc_all == -1`), the furiten flag absorbs `discarded_tiles[t]` and the
wait flag is set iff fewer than four copies have been seen.  The per-index
loop is translated index-wise. -/
def updateWaitsAndFuriten (s : PState) : PState :=
  if 0 < s.shanten then
    { s with atFuriten := false, waits := List.replicate 34 false }
  else
    { s with
      atFuriten := (List.range 34).any (fun t =>
        !(tget s.tehai t == 4)
        && calcAll (tset s.tehai t (tget s.tehai t + 1)) s.tehaiLenDiv3 == -1
        && s.discardedTiles.getD t false)
      waits := (List.range 34).map (fun t =>
        !(tget s.tehai t == 4)
        && calcAll (tset s.tehai t (tget s.tehai t + 1)) s.tehaiLenDiv3 == -1
        && tget s.tilesSeen t < 4) }

/-- Model of the `AGARI_TABLE` loader (`LazyLock` initializer plus
`ensure_init`), at the granularity of decoded entries: `entries` is the
sequence of (key, packed divs) records the byte stream decodes to, `trailing`
says whether bytes remain after them, and `cfgTest` is `cfg!(test)`.  The
loader reads exactly `AGARI_TABLE_SIZE = 9362` entries (failing when the
stream is shorter) and *only under `cfg!(test)`* asserts key uniqueness and
stream exhaustion before building the map. -/
def loadAgariTable (cfgTest : Bool) (entries : List (Nat × List Nat))
    (trailing : Bool) : Option (List (Nat × List Nat)) :=
  if entries.length != 9362 then none
  else if cfgTest && !(decide ((entries.map Prod.fst).Nodup) && !trailing) then none
  else some entries

/-- Modelled from the spec: the mutable hand-state record of `sp::State`
(the `sp/state.rs` source is not in the tree) — tile counts, the three
red-five flags, the remaining-wall counts and the tegawari budget
`n_extra_tsumo`.  Counts are embedded as `Int` so that the inverse-pair
structure of the undo operations is unconditional. -/
structure SPState where
  tehai : List Int
  akas : List Bool
  tilesInWall : List Int
  nExtraTsumo : Int
deriving DecidableEq, Repr

/-- Modelled from the spec: `Tile::deaka` on the 37-tile index space. -/
def deakaT (t : Nat) : Nat :=
  if t == 34 then 4 else if t == 35 then 13 else if t == 36 then 22 else t

/-- Whether a tile index denotes a red five. -/
def isAkaT (t : Nat) : Bool := 34 ≤ t

/-- The suit of a red five (0, 1 or 2). -/
def akaSuit (t : Nat) : Nat := t - 34

/-- Read of an `Int` count vector. -/
def iget (l : List Int) (i : Nat) : Int := l.getD i 0

/-- Modelled from the spec: `State::discard` — remove the tile from the
hand, clearing the suit's red-five flag when the discarded tile is red. -/
def SPState.discardT (s : SPState) (t : Nat) : SPState :=
  { s with
    tehai := s.tehai.set (deakaT t) (iget s.tehai (deakaT t) - 1)
    akas := if isAkaT t then s.akas.set (akaSuit t) false else s.akas }

/-- Modelled from the spec: `State::undo_discard` — the inverse of
`discard`. -/
def SPState.undoDiscardT (s : SPState) (t : Nat) : SPState :=
  { s with
    tehai := s.tehai.set (deakaT t) (iget s.tehai (deakaT t) + 1)
    akas := if isAkaT t then s.akas.set (akaSuit t) true else s.akas }

/-- Modelled from the spec: `State::deal` — draw the tile from the wall into
the hand, setting the suit's red-five flag when the tile is red. -/
def SPState.dealT (s : SPState) (t : Nat) : SPState :=
  { s with
    tehai := s.tehai.set (deakaT t) (iget s.tehai (deakaT t) + 1)
    tilesInWall := s.tilesInWall.set (deakaT t) (iget s.tilesInWall (deakaT t) - 1)
    akas := if isAkaT t then s.akas.set (akaSuit t) true else s.akas }

/-- Modelled from the spec: `State::undo_deal` — the inverse of `deal`. -/
def SPState.undoDealT (s : SPState) (t : Nat) : SPState :=
  { s with
    tehai := s.tehai.set (deakaT t) (iget s.tehai (deakaT t) - 1)
    tilesInWall := s.tilesInWall.set (deakaT t) (iget s.tilesInWall (deakaT t) + 1)
    akas := if isAkaT t then s.akas.set (akaSuit t) false else s.akas }

/-- The `n_extra_tsumo += 1` step. -/
def SPState.bumpExtra (s : SPState) : SPState :=
  { s with nExtraTsumo := s.nExtraTsumo + 1 }

/-- The `n_extra_tsumo -= 1` step. -/
def SPState.unbumpExtra (s : SPState) : SPState :=
  { s with nExtraTsumo := s.nExtraTsumo - 1 }

/-- The environment of the expected-value recursion: the tile lists produced
by `State::get_discard_tiles` / `State::get_draw_tiles` (whose sources are
not in the tree — each entry is a tile with its `shanten_diff`) and the two
search options that steer the recursion.  The numeric tables and scores do
not touch the hand state and are not needed for the frame property. -/
structure SPOracles where
  getDiscardTiles : SPState → List (Nat × Int)
  getDrawTiles : SPState → List (Nat × Int)
  calcTegawari : Bool
  calcShantenDown : Bool

/-- The two memoization caches, reduced to their key sets (shanten level and
hand state); the cached values never influence the hand state. -/
structure SPCaches where
  drawC : List (Int × SPState)
  discardC : List (Int × SPState)

mutual

/-- Mutual embedding of the state-mutation skeleton of
`SPCalculatorState::{draw, draw_with_tegawari_slow,
draw_without_tegawari_slow, discard, discard_slow}`: every `deal`/`discard`
and every `n_extra_tsumo` bump is replayed in source order, the numeric
accumulation being dropped (it reads the state but never writes it; the
`get_score` branch of the draw loops mutates nothing either way, both its
paths ending in `undo_deal`).  `fuel` bounds the recursion depth as the
decreasing shanten/tegawari-budget measure of the source does; an exhausted
fuel call returns its state unchanged. -/
def drawF : Nat → SPOracles → Int → SPState → SPCaches → SPState × SPCaches
  | 0, _, _, s, c => (s, c)
  | fuel + 1, o, sh, s, c =>
    if o.calcTegawari && s.nExtraTsumo == 0 then
      if c.drawC.contains (sh, s) then (s, c) else drawTegawariSlowF fuel o sh s c
    else
      if c.drawC.contains (sh, s) then (s, c) else drawNoTegawariSlowF fuel o sh s c

/-- The `draw_with_tegawari_slow` skeleton: the advancing loop over
`shanten_diff == -1` draw tiles, the tegawari loop over `shanten_diff == 0`
draw tiles, and the cache insertion. -/
def drawTegawariSlowF : Nat → SPOracles → Int → SPState → SPCaches → SPState × SPCaches
  | 0, _, _, s, c => (s, c)
  | fuel + 1, o, sh, s, c =>
    let dts := o.getDrawTiles s
    let r1 := dts.foldl (fun (acc : SPState × SPCaches) td =>
      if td.2 != -1 then acc
      else
        let sD := acc.1.dealT td.1
        let r := if 0 < sh then discardF fuel o (sh - 1) sD acc.2 else (sD, acc.2)
        (r.1.undoDealT td.1, r.2)) (s, c)
    let r2 := dts.foldl (fun (acc : SPState × SPCaches) td =>
      if td.2 != 0 then acc
      else
        let sD := (acc.1.dealT td.1).bumpExtra
        let r := discardF fuel o sh sD acc.2
        ((r.1.unbumpExtra).undoDealT td.1, r.2)) r1
    (r2.1, { r2.2 with drawC := (sh, r2.1) :: r2.2.drawC })

/-- The `draw_without_tegawari_slow` skeleton: only the advancing loop, and
the cache insertion. -/
def drawNoTegawariSlowF : Nat → SPOracles → Int → SPState → SPCaches → SPState × SPCaches
  | 0, _, _, s, c => (s, c)
  | fuel + 1, o, sh, s, c =>
    let dts := o.getDrawTiles s
    let r1 := dts.foldl (fun (acc : SPState × SPCaches) td =>
      if td.2 != -1 then acc
      else
        let sD := acc.1.dealT td.1
        let r := if 0 < sh then discardF fuel o (sh - 1) sD acc.2 else (sD, acc.2)
        (r.1.undoDealT td.1, r.2)) (s, c)
    (r1.1, { r1.2 with drawC := (sh, r1.1) :: r1.2.drawC })

/-- The `discard` cache wrapper. -/
def discardF : Nat → SPOracles → Int → SPState → SPCaches → SPState × SPCaches
  | 0, _, _, s, c => (s, c)
  | fuel + 1, o, sh, s, c =>
    if c.discardC.contains (sh, s) then (s, c) else discardSlowF fuel o sh s c

/-- The `discard_slow` skeleton: the loop over discard tiles with the
keep-shanten branch and the shanten-down branch (which requires
`calc_shanten_down`, an untouched tegawari budget and `shanten <
SHANTEN_THRES = 6`), and the cache insertion. -/
def discardSlowF : Nat → SPOracles → Int → SPState → SPCaches → SPState × SPCaches
  | 0, _, _, s, c => (s, c)
  | fuel + 1, o, sh, s, c =>
    let dts := o.getDiscardTiles s
    let r1 := dts.foldl (fun (acc : SPState × SPCaches) td =>
      if td.2 == 0 then
        let sD := acc.1.discardT td.1
        let r := drawF fuel o sh sD acc.2
        (r.1.undoDiscardT td.1, r.2)
      else if o.calcShantenDown && acc.1.nExtraTsumo == 0 && td.2 == 1 && sh < 6 then
        let sD := (acc.1.discardT td.1).bumpExtra
        let r := drawF fuel o (sh + 1) sD acc.2
        ((r.1.unbumpExtra).undoDiscardT td.1, r.2)
      else acc) (s, c)
    (r1.1, { r1.2 with discardC := (sh, r1.1) :: r1.2.discardC })

end

/-- The `analyze_discard` skeleton: per candidate discard, the advancing
branch and (under `calc_shanten_down` with `shanten < SHANTEN_THRES`) the
shanten-down branch; no cache insertion of its own. -/
def analyzeDiscardF (fuel : Nat) (o : SPOracles) (sh : Int) (s : SPState)
    (c : SPCaches) : SPState × SPCaches :=
  (o.getDiscardTiles s).foldl (fun (acc : SPState × SPCaches) td =>
    if td.2 == 0 then
      let sD := acc.1.discardT td.1
      let r := drawF fuel o sh sD acc.2
      (r.1.undoDiscardT td.1, r.2)
    else if o.calcShantenDown && td.2 == 1 && sh < 6 then
      let sD := (acc.1.discardT td.1).bumpExtra
      let r := drawF fuel o (sh + 1) sD acc.2
      ((r.1.unbumpExtra).undoDiscardT td.1, r.2)
    else acc) (s, c)

/-- Build a hand vector from a list of tile ids (with multiplicity). -/
def mkHand (ts : List Nat) : List Nat :=
  ts.foldl (fun c t => tset c t (tget c t + 1)) (List.replicate 34 0)

/-- The closed hand 666677778888m + 99p of the ambiguous-winning-tile
scenario. -/
def hand678m99p : List Nat := mkHand [5, 5, 5, 5, 6, 6, 6, 6, 7, 7, 7, 7, 17, 17]

/-- The calculator for 666677778888m 99p, ron 8m, menzen, east round and
seat. -/
def c6Calc8m : ACalc :=
  { tehai := hand678m99p, is_menzen := true, chis := [], pons := [],
    minkans := [], ankans := [], bakaze := 27, jikaze := 27,
    winning_tile := 7, is_ron := true }

/-- The same hand with winning tile 7m. -/
def c6Calc7m : ACalc :=
  { tehai := hand678m99p, is_menzen := true, chis := [], pons := [],
    minkans := [], ankans := [], bakaze := 27, jikaze := 27,
    winning_tile := 6, is_ron := true }

/-- A pure daisuushii hand: triplets of all four winds plus a 1m pair. -/
def daisuushiiHand : List Nat :=
  mkHand [27, 27, 27, 28, 28, 28, 29, 29, 29, 30, 30, 30, 0, 0]

/-- The calculator for the daisuushii hand, ron on East (which demotes the
East triplet, so no suuankou and no tsuuiisou interferes: the winds block is
the only yakuman source). -/
def daisuushiiCalc : ACalc :=
  { tehai := daisuushiiHand, is_menzen := true, chis := [], pons := [],
    minkans := [], ankans := [], bakaze := 27, jikaze := 27,
    winning_tile := 27, is_ron := true }

/-- A thirteen-wait (juusanmen) kokushi hand: all thirteen orphans with the
1m paired. -/
def kokushiHand : List Nat :=
  mkHand [0, 8, 9, 17, 18, 26, 27, 28, 29, 30, 31, 32, 33, 0]

/-- The calculator for the juusanmen kokushi hand won on 1m. -/
def kokushiCalc : ACalc :=
  { tehai := kokushiHand, is_menzen := true, chis := [], pons := [],
    minkans := [], ankans := [], bakaze := 27, jikaze := 27,
    winning_tile := 0, is_ron := true }

/-- A completed hand with no yaku: 123m 456m 123p 789p 11s, ron 2m
(kanchan-free shape is irrelevant — the wait is not ryanmen, the hand is not
tanyao, and no other yaku applies). -/
def noYakuCalc : ACalc :=
  { tehai := mkHand [0, 1, 2, 3, 4, 5, 9, 10, 11, 15, 16, 17, 18, 18],
    is_menzen := true, chis := [], pons := [], minkans := [], ankans := [],
    bakaze := 27, jikaze := 28, winning_tile := 1, is_ron := true }

/-- A tenpai 3n+1 hand (one meld locked elsewhere, `tehai_len_div3 = 1`)
123m + 9s whose only winning tile, 9s, is exhausted: all four copies are
among the tiles seen (karaten). -/
def karatenState : PState :=
  { tehai := mkHand [0, 1, 2, 26]
    tehaiLenDiv3 := 1
    shanten := 0
    waits := List.replicate 34 false
    atFuriten := false
    discardedTiles := List.replicate 34 false
    tilesSeen := tset (mkHand [0, 1, 2, 26]) 26 4
    canDiscard := false }

/-- A decoded entry stream with 9,362 identical (hence duplicated) keys. -/
def dupEntries : List (Nat × List Nat) := List.replicate 9362 (0, [0])

/-- A worker satisfying the concealed-hand side conditions of the fu-bound
theorem: four concealed runs 123m 456m 789m 123p with the 1s pair, won by
tsumo on 2m. -/
def fuWitnessWorker : DivWorker :=
  { sup :=
      { tehai := mkHand [0, 1, 2, 3, 4, 5, 6, 7, 8, 9, 10, 11, 18, 18]
        is_menzen := true, chis := [], pons := [], minkans := [], ankans := []
        bakaze := 27, jikaze := 28, winning_tile := 1, is_ron := false }
    tile14 := tile14Of (mkHand [0, 1, 2, 3, 4, 5, 6, 7, 8, 9, 10, 11, 18, 18])
    div :=
      { pairTile := 18, kotsu := [], shuntsu := [0, 3, 6, 9]
        hasChitoi := false, hasChuuren := false, hasIttsuu := false
        hasRyanpeikou := false, hasIpeikou := false } }

/-- Oracles producing no candidate tiles (trivially aka-consistent). -/
def emptyOracles : SPOracles :=
  { getDiscardTiles := fun _ => []
    getDrawTiles := fun _ => []
    calcTegawari := true
    calcShantenDown := true }

/-- A small concrete expected-value hand state. -/
def spState0 : SPState :=
  { tehai := List.replicate 34 0
    akas := [false, false, false]
    tilesInWall := List.replicate 34 4
    nExtraTsumo := 0 }

/-- Read of a map over `List.range` at an in-range index. -/
theorem getD_map_range {α : Type} (f : Nat → α) (d : α) (n t : Nat) (h : t < n) :
    ((List.range n).map f).getD t d = f t := by
  rw [List.getD_eq_getElem _ _ (by simpa using h)]
  simp

/-- C6: for the closed hand 666677778888m 99p won by ron, the yaku search
returns Normal{fu: 30, han: 4} when the winning tile is 8m (the winning tile
is absorbed into a 678m run, preserving the three concealed triplets for
sanankou, and the four-identical-runs division wins with pinfu + ryanpeikou)
and Normal{fu: 40, han: 3} when the winning tile is 7m. -/
theorem c6_ambiguous_winning_tile :
    c6Calc8m.searchYakus = some (.normal 30 4)
    ∧ c6Calc7m.searchYakus = some (.normal 40 3) := by
  constructor
  · decide
  · decide

/-- C8 counterexample: with `cfg!(test)` off (every non-test build), the
loader accepts a stream whose 9,362 keys are all duplicates and which has
trailing bytes — so the claimed validation does not happen in every build. -/
theorem c8_counterexample :
    loadAgariTable false dupEntries true = some dupEntries
    ∧ ¬ (dupEntries.map Prod.fst).Nodup := by
  have hlen : dupEntries.length = 9362 := by
    unfold dupEntries; exact List.length_replicate ..
  constructor
  · unfold loadAgariTable
    rw [if_neg (by rw [hlen]; simp), if_neg (by simp)]
  · simp only [dupEntries, List.map_replicate, List.nodup_replicate]
    omega

/-- C8 amended: the loader always decodes exactly 9,362 entries (failing on
a shorter stream), but the key-uniqueness and trailing-byte validations run
only under `cfg!(test)`; a non-test build accepts any 9,362-entry stream. -/
theorem c8_amended (entries : List (Nat × List Nat)) (trailing : Bool) :
    ((loadAgariTable true entries trailing).isSome ↔
      (entries.length = 9362 ∧ (entries.map Prod.fst).Nodup ∧ trailing = false))
    ∧ ((loadAgariTable false entries trailing).isSome ↔ entries.length = 9362) := by
  unfold loadAgariTable
  constructor
  · split_ifs with h1 h2
    · simp_all
    · constructor
      · intro h; simp at h
      · rintro ⟨hlen, hnd, htr⟩
        simp_all
    · simp_all
  · split_ifs with h1 h2
    · simp_all
    · simp_all
    · simp_all

/-- C10: in the suit classification loop of `calculate_tile_danger`, a
rank-3 tile is assigned Suji37 whenever no copy of its suit's rank-5 tile
remains unseen; but for ranks 7–9 the analogous `num == 2` guard can never
hold, so those tiles are classified by the rank-9 safe check or the suji
table lookup alone. -/
theorem c10_suji37_rank3_only (safeTiles : List Bool) (leftTiles : List Nat)
    (lowRisk : List Bool) (kind num : Nat)
    (hk : kind < 3) (h6 : 6 ≤ num) (h9 : num < 9) :
    (tget leftTiles (9 * kind + 4) = 0 →
      sujiStage safeTiles leftTiles lowRisk kind 2 = .suji37)
    ∧ (num == 2) = false
    ∧ sujiStage safeTiles leftTiles lowRisk kind num =
        (if num == 8 && safeTiles.getD (9 * kind + num - 3) false
            && tget leftTiles (9 * kind + num) == 0 then .safe
         else suhaiLookup num
           (if lowRisk.getD (9 * kind + num + 3) false then 1 else 0)) := by
  refine ⟨?_, ?_, ?_⟩
  · intro h
    have harith : 9 * kind + 2 + 2 = 9 * kind + 4 := by omega
    simp only [sujiStage]
    norm_num
    rw [harith]
    simp [h]
  · interval_cases num <;> decide
  · interval_cases num <;> simp [sujiStage]

/-- C10 witness at kind 0, num 7 and all-empty inputs. -/
theorem c10_suji37_rank3_only_witness :
    ((0 : Nat) < 3 ∧ (6 : Nat) ≤ 7 ∧ (7 : Nat) < 9)
    ∧ ((tget (List.replicate 34 0) (9 * 0 + 4) = 0 →
        sujiStage (List.replicate 34 false) (List.replicate 34 0)
          (List.replicate 34 false) 0 2 = .suji37)
      ∧ ((7 : Nat) == 2) = false
      ∧ sujiStage (List.replicate 34 false) (List.replicate 34 0)
          (List.replicate 34 false) 0 7 =
          (if (7 : Nat) == 8 && (List.replicate 34 false).getD (9 * 0 + 7 - 3) false
              && tget (List.replicate 34 0) (9 * 0 + 7) == 0 then .safe
           else suhaiLookup 7
             (if (List.replicate 34 false).getD (9 * 0 + 7 + 3) false then 1 else 0))) :=
  ⟨by decide,
   c10_suji37_rank3_only (List.replicate 34 false) (List.replicate 34 0)
     (List.replicate 34 false) 0 7 (by decide) (by decide) (by decide)⟩

/-- C2: for a concealed no-call 14-tile hand that `calc_kokushi` reports
complete, the with-names yaku search returns Yakuman(1), except Yakuman(2)
when the winning tile is the paired tile — detected by the count of the
winning tile in the final hand being 2. -/
theorem c2_kokushi_juusanmen (a : ACalc)
    (hm : a.is_menzen = true)
    (hchis : a.chis = []) (hpons : a.pons = []) (hminkans : a.minkans = [])
    (h14 : a.tehai.sum = 14)
    (hkok : calcKokushi a.tehai = -1) :
    a.searchYakusWithNames =
      some (.yakuman (if tget a.tehai a.winning_tile = 2 then 2 else 1)) := by
  unfold ACalc.searchYakusWithNames
  rw [if_pos (by rw [hm, hkok]; simp)]
  by_cases h2 : tget a.tehai a.winning_tile = 2
  · rw [if_pos (by simp [h2]), if_pos h2]
  · rw [if_neg (by simp [h2]), if_neg h2]

/-- C2 witness: the juusanmen kokushi hand won on its paired tile. -/
theorem c2_kokushi_juusanmen_witness :
    (kokushiCalc.is_menzen = true ∧ kokushiCalc.chis = [] ∧ kokushiCalc.pons = []
      ∧ kokushiCalc.minkans = [] ∧ kokushiCalc.tehai.sum = 14
      ∧ calcKokushi kokushiCalc.tehai = -1)
    ∧ kokushiCalc.searchYakusWithNames =
        some (.yakuman (if tget kokushiCalc.tehai kokushiCalc.winning_tile = 2 then 2 else 1)) :=
  ⟨by refine ⟨rfl, rfl, rfl, rfl, ?_, ?_⟩ <;> decide,
   c2_kokushi_juusanmen kokushiCalc rfl rfl rfl rfl (by decide) (by decide)⟩

/-- C4: for a hand the agari table decomposes (the lookup is nonempty),
`agari` returns `None` iff the yaku search is empty and the external han
count is 0; with no yaku but positive external hans it returns fu 0 at
mangan or better, and otherwise the best fu over all decompositions with
`han = additional + doras`. -/
theorem c4_no_yaku_paths (a : ACalc) (ah doras : Nat)
    (hdivs : agariDivs a.tehai ≠ []) :
    (a.agari ah doras = none ↔ (a.searchYakus = none ∧ ah = 0))
    ∧ (a.searchYakus = none → ah ≠ 0 → 5 ≤ ah + doras →
        a.agari ah doras = some (.normal 0 (ah + doras)))
    ∧ (a.searchYakus = none → ah ≠ 0 → ah + doras < 5 →
        ∃ fu, ((agariDivs a.tehai).map (fun d => (mkWorker a d).calcFu false)).max?
            = some fu
          ∧ a.agari ah doras = some (.normal fu (ah + doras))) := by
  obtain ⟨fuM, hfuM⟩ :
      ∃ fu, ((agariDivs a.tehai).map (fun d => (mkWorker a d).calcFu false)).max?
        = some fu := by
    rcases hE : ((agariDivs a.tehai).map (fun d => (mkWorker a d).calcFu false)).max?
      with _ | fu
    · exact absurd (List.map_eq_nil_iff.mp (List.max?_eq_none_iff.mp hE)) hdivs
    · exact ⟨fu, rfl⟩
  unfold ACalc.agari
  rcases hsy : a.searchYakus with _ | ag
  · refine ⟨?_, ?_, ?_⟩
    · by_cases hz : ah = 0
      · subst hz; simp
      · rw [if_neg (by simpa using hz)]
        by_cases h5 : 5 ≤ ah + doras
        · rw [if_pos h5]; simp [hz]
        · rw [if_neg h5, hfuM]; simp [hz]
    · intro _ hz h5
      rw [if_neg (by simpa using hz), if_pos h5]
    · intro _ hz h5
      rw [if_neg (by simpa using hz), if_neg (by omega), hfuM]
      exact ⟨fuM, rfl, rfl⟩
  · rcases ag with ⟨fu, han⟩ | n
    · simp
    · simp

/-- C5: for a concealed hand (no chi/pon/minkan), the fu of a chiitoitsu
division is exactly 25; any other division's fu is a multiple of 10 that is
at least 20, and at least 30 unless the division is pinfu won by tsumo. -/
theorem c5_fu_bounds (w : DivWorker)
    (hmz : w.sup.is_menzen = true)
    (hchis : w.sup.chis = []) (hpons : w.sup.pons = [])
    (hminkans : w.sup.minkans = []) :
    (w.div.hasChitoi = true → w.calcFu w.hasPinfuW = 25)
    ∧ (w.div.hasChitoi = false →
        10 ∣ w.calcFu w.hasPinfuW
        ∧ 20 ≤ w.calcFu w.hasPinfuW
        ∧ (¬(w.hasPinfuW = true ∧ w.sup.is_ron = false) →
            30 ≤ w.calcFu w.hasPinfuW)) := by
  have hbase : 20 ≤ w.baseFu := by
    unfold DivWorker.baseFu; omega
  constructor
  · intro h; simp [DivWorker.calcFu, h]
  · intro h
    simp only [DivWorker.calcFu, h, Bool.false_eq_true, if_false, hmz, Bool.not_true]
    refine ⟨?_, ?_, ?_⟩
    · split_ifs <;> omega
    · split_ifs <;> omega
    · intro h3
      by_cases hpin : w.hasPinfuW = true
      · have hron : w.sup.is_ron = true := by
          rcases Bool.eq_false_or_eq_true w.sup.is_ron with hr | hr
          · exact hr
          · exact absurd ⟨hpin, hr⟩ h3
        simp only [hpin, hron]
        split_ifs <;> omega
      · have hpin2 : w.hasPinfuW = false := by
          rcases Bool.eq_false_or_eq_true w.hasPinfuW with hr | hr
          · exact absurd hr hpin
          · exact hr
        simp only [hpin2, Bool.false_eq_true, if_false]
        split_ifs <;> omega

/-- C5 witness: a concealed four-run worker won by tsumo. -/
theorem c5_fu_bounds_witness :
    (fuWitnessWorker.sup.is_menzen = true ∧ fuWitnessWorker.sup.chis = []
      ∧ fuWitnessWorker.sup.pons = [] ∧ fuWitnessWorker.sup.minkans = [])
    ∧ ((fuWitnessWorker.div.hasChitoi = true →
          fuWitnessWorker.calcFu fuWitnessWorker.hasPinfuW = 25)
      ∧ (fuWitnessWorker.div.hasChitoi = false →
          10 ∣ fuWitnessWorker.calcFu fuWitnessWorker.hasPinfuW
          ∧ 20 ≤ fuWitnessWorker.calcFu fuWitnessWorker.hasPinfuW
          ∧ (¬(fuWitnessWorker.hasPinfuW = true
                ∧ fuWitnessWorker.sup.is_ron = false) →
              30 ≤ fuWitnessWorker.calcFu fuWitnessWorker.hasPinfuW))) :=
  ⟨⟨rfl, rfl, rfl, rfl⟩, c5_fu_bounds fuWitnessWorker rfl rfl rfl rfl⟩

/-- C4 witness: the yakuless hand with one external han and no dora. -/
theorem c4_no_yaku_paths_witness :
    (agariDivs noYakuCalc.tehai ≠ [])
    ∧ ((noYakuCalc.agari 1 0 = none ↔ (noYakuCalc.searchYakus = none ∧ (1 : Nat) = 0))
      ∧ (noYakuCalc.searchYakus = none → (1 : Nat) ≠ 0 → 5 ≤ 1 + 0 →
          noYakuCalc.agari 1 0 = some (.normal 0 (1 + 0)))
      ∧ (noYakuCalc.searchYakus = none → (1 : Nat) ≠ 0 → 1 + 0 < 5 →
          ∃ fu, ((agariDivs noYakuCalc.tehai).map
                (fun d => (mkWorker noYakuCalc d).calcFu false)).max? = some fu
            ∧ noYakuCalc.agari 1 0 = some (.normal fu (1 + 0)))) :=
  ⟨by decide, c4_no_yaku_paths noYakuCalc 1 0 (by decide)⟩

/-- Membership form of `List.any` over a mapped range. -/
theorem any_map_range (f : Nat → Bool) (n : Nat) :
    ((List.range n).map f).any id = true ↔ ∃ u, u < n ∧ f u = true := by
  simp [List.any_eq_true]

/-- C1 amended: at 3n+1 with `shanten = 0`, `waits[t]` is true iff the hand
does not already hold four copies of t, adding one copy of t makes the hand
complete, and fewer than four copies of t have been seen; consequently the
waits are nonempty iff some such tile exists (not merely iff shanten is 0 —
a karaten hand has none). -/
theorem c1_amended (s : PState) (t : Nat)
    (hcd : s.canDiscard = false) (hsh : s.shanten = 0) (ht : t < 34) :
    ((updateWaitsAndFuriten s).waits.getD t false = true ↔
      (tget s.tehai t ≠ 4
       ∧ calcAll (tset s.tehai t (tget s.tehai t + 1)) s.tehaiLenDiv3 = -1
       ∧ tget s.tilesSeen t < 4))
    ∧ ((updateWaitsAndFuriten s).waits.any id = true ↔
        ∃ u, u < 34 ∧ tget s.tehai u ≠ 4
          ∧ calcAll (tset s.tehai u (tget s.tehai u + 1)) s.tehaiLenDiv3 = -1
          ∧ tget s.tilesSeen u < 4) := by
  unfold updateWaitsAndFuriten
  rw [if_neg (by rw [hsh]; omega)]
  have hchar : ∀ u, u < 34 →
      ((!(tget s.tehai u == 4)
        && (calcAll (tset s.tehai u (tget s.tehai u + 1)) s.tehaiLenDiv3 == -1)
        && decide (tget s.tilesSeen u < 4)) = true ↔
      (tget s.tehai u ≠ 4
       ∧ calcAll (tset s.tehai u (tget s.tehai u + 1)) s.tehaiLenDiv3 = -1
       ∧ tget s.tilesSeen u < 4)) := by
    intro u hu
    simp only [Bool.and_eq_true, Bool.not_eq_true', beq_iff_eq, beq_eq_false_iff_ne,
      decide_eq_true_eq]
    omega
  refine ⟨?_, ?_⟩
  · rw [getD_map_range _ _ _ _ ht]
    exact hchar t ht
  · rw [any_map_range]
    constructor
    · rintro ⟨u, hu, hf⟩
      exact ⟨u, hu, (hchar u hu).mp hf⟩
    · rintro ⟨u, hu, hp⟩
      exact ⟨u, hu, (hchar u hu).mpr hp⟩

set_option maxRecDepth 100000 in
/-- C1 counterexample: a karaten tenpai state — adding 9s makes the hand
complete, yet `waits[9s]` is false (all four copies are seen) and the whole
waits array stays empty at shanten 0, contradicting both halves of the
claimed equivalence. -/
theorem c1_counterexample :
    karatenState.shanten = 0
    ∧ karatenState.canDiscard = false
    ∧ calcAll (tset karatenState.tehai 26 (tget karatenState.tehai 26 + 1))
        karatenState.tehaiLenDiv3 = -1
    ∧ (updateWaitsAndFuriten karatenState).waits.getD 26 false = false
    ∧ (updateWaitsAndFuriten karatenState).waits = List.replicate 34 false := by
  have hw : (updateWaitsAndFuriten karatenState).waits = List.replicate 34 false := by
    decide
  exact ⟨rfl, rfl, by decide, by rw [hw]; decide, hw⟩

/-- C1 witness: the amended characterization applied to the karaten state at
tile 9s. -/
theorem c1_amended_witness :
    (karatenState.canDiscard = false ∧ karatenState.shanten = 0 ∧ 26 < 34)
    ∧ (((updateWaitsAndFuriten karatenState).waits.getD 26 false = true ↔
        (tget karatenState.tehai 26 ≠ 4
         ∧ calcAll (tset karatenState.tehai 26 (tget karatenState.tehai 26 + 1))
             karatenState.tehaiLenDiv3 = -1
         ∧ tget karatenState.tilesSeen 26 < 4))
      ∧ ((updateWaitsAndFuriten karatenState).waits.any id = true ↔
          ∃ u, u < 34 ∧ tget karatenState.tehai u ≠ 4
            ∧ calcAll (tset karatenState.tehai u (tget karatenState.tehai u + 1))
                karatenState.tehaiLenDiv3 = -1
            ∧ tget karatenState.tilesSeen u < 4)) :=
  ⟨⟨rfl, rfl, by omega⟩, c1_amended karatenState 26 rfl rfl (by omega)⟩

/-- C3 counterexample: on a pure daisuushii hand (four wind triplets, 1m
pair, ron on East so that no other yakuman fires), the plain yaku search
returns Yakuman(1), not the Yakuman(2) the claim requires; only the
with-names variant returns Yakuman(2). -/
theorem c3_counterexample :
    daisuushiiCalc.searchYakus = some (.yakuman 1)
    ∧ daisuushiiCalc.searchYakus ≠ some (.yakuman 2)
    ∧ daisuushiiCalc.searchYakusWithNames = some (.yakuman 2) := by
  refine ⟨by decide, by decide, by decide⟩

/-- C3 amended: the plain `DivWorker::search_yakus` counts daisuushii as a
single yakuman, exactly like shousuushii; the with-names variant is the one
that counts it double — its yakuman total exceeds the plain total by exactly
one on four-wind hands, the only other differences being the nine-gate
chuuren and suuankou-tanki doublings. -/
theorem c3_amended (w : DivWorker) :
    w.yakumanTotalNames =
      w.yakumanTotal
      + (if w.div.hasChuuren
            && (tget w.sup.tehai w.sup.winning_tile == 2
                || tget w.sup.tehai w.sup.winning_tile == 4) then 1 else 0)
      + (if !w.div.hasChitoi && (w.ankousCount == 4)
            && (tget w.sup.tehai w.sup.winning_tile == 2) then 1 else 0)
      + (if !w.div.hasChitoi && !w.hasTanyaoW && (w.windsCount == 4) then 1 else 0) := by
  unfold DivWorker.yakumanTotal DivWorker.yakumanTotalNames
  cases hchi : w.div.hasChitoi <;>
  cases htan : w.hasTanyaoW <;>
  cases hchu : w.div.hasChuuren <;>
  cases h2 : tget w.sup.tehai w.sup.winning_tile == 2 <;>
  cases h4 : tget w.sup.tehai w.sup.winning_tile == 4 <;>
  cases hank : w.ankousCount == 4 <;>
  cases hw4 : w.windsCount == 4 <;>
  simp [hchi, htan, hchu, h2, h4, hank, hw4] <;>
  omega

/-- Mirror symmetry of the first (OneChance) pass. -/
theorem ocPass_mirror (t t' : Nat → Nat) (j : Nat) (hj : j < 9)
    (ht : ∀ r, r < 9 → t' r = t (8 - r)) :
    ocPass t j = ocPass t' (8 - j) := by
  have e0 : t' 0 = t 8 := by simpa using ht 0 (by omega)
  have e1 : t' 1 = t 7 := by simpa using ht 1 (by omega)
  have e2 : t' 2 = t 6 := by simpa using ht 2 (by omega)
  have e3 : t' 3 = t 5 := by simpa using ht 3 (by omega)
  have e4 : t' 4 = t 4 := by simpa using ht 4 (by omega)
  have e5 : t' 5 = t 3 := by simpa using ht 5 (by omega)
  have e6 : t' 6 = t 2 := by simpa using ht 6 (by omega)
  have e7 : t' 7 = t 1 := by simpa using ht 7 (by omega)
  have e8 : t' 8 = t 0 := by simpa using ht 8 (by omega)
  interval_cases j <;>
    simp [ocPass, e0, e1, e2, e3, e4, e5, e6, e7, e8,
      Bool.or_comm, Bool.or_assoc, Bool.or_left_comm,
      Bool.and_comm, Bool.and_assoc, Bool.and_left_comm]
/-- Mirror symmetry of the NoChance pass. -/
theorem ncPass_mirror (t t' : Nat → Nat) (j : Nat) (hj : j < 9)
    (ht : ∀ r, r < 9 → t' r = t (8 - r)) :
    ncPassCond t j = ncPassCond t' (8 - j) := by
  have e0 : t' 0 = t 8 := by simpa using ht 0 (by omega)
  have e1 : t' 1 = t 7 := by simpa using ht 1 (by omega)
  have e2 : t' 2 = t 6 := by simpa using ht 2 (by omega)
  have e3 : t' 3 = t 5 := by simpa using ht 3 (by omega)
  have e4 : t' 4 = t 4 := by simpa using ht 4 (by omega)
  have e5 : t' 5 = t 3 := by simpa using ht 5 (by omega)
  have e6 : t' 6 = t 2 := by simpa using ht 6 (by omega)
  have e7 : t' 7 = t 1 := by simpa using ht 7 (by omega)
  have e8 : t' 8 = t 0 := by simpa using ht 8 (by omega)
  interval_cases j <;>
    simp [ncPassCond, e0, e1, e2, e3, e4, e5, e6, e7, e8,
      Bool.or_comm, Bool.or_assoc, Bool.or_left_comm,
      Bool.and_comm, Bool.and_assoc, Bool.and_left_comm]

/-- Mirror symmetry of the wall-based DoubleNoChance pass. -/
theorem dncPass_mirror (t t' : Nat → Nat) (j : Nat) (hj : j < 9)
    (ht : ∀ r, r < 9 → t' r = t (8 - r)) :
    dncPassCond t j = dncPassCond t' (8 - j) := by
  have e0 : t' 0 = t 8 := by simpa using ht 0 (by omega)
  have e1 : t' 1 = t 7 := by simpa using ht 1 (by omega)
  have e2 : t' 2 = t 6 := by simpa using ht 2 (by omega)
  have e3 : t' 3 = t 5 := by simpa using ht 3 (by omega)
  have e4 : t' 4 = t 4 := by simpa using ht 4 (by omega)
  have e5 : t' 5 = t 3 := by simpa using ht 5 (by omega)
  have e6 : t' 6 = t 2 := by simpa using ht 6 (by omega)
  have e7 : t' 7 = t 1 := by simpa using ht 7 (by omega)
  have e8 : t' 8 = t 0 := by simpa using ht 8 (by omega)
  interval_cases j <;>
    simp [dncPassCond, e0, e1, e2, e3, e4, e5, e6, e7, e8,
      Bool.or_comm, Bool.or_assoc, Bool.or_left_comm,
      Bool.and_comm, Bool.and_assoc, Bool.and_left_comm]

/-- With no accumulated safe tiles the fourth pass never fires. -/
theorem safeDncPass_false (t : Nat → Nat) (s : Nat → Bool) (j : Nat)
    (hs : ∀ r, s r = false) :
    safeDncPassCond t s j = false := by
  unfold safeDncPassCond
  split_ifs <;> simp [hs]

/-- Rank-level mirror symmetry of the whole wall-danger classification with
no accumulated safe tiles. -/
theorem wallDangerRank_mirror (t t' : Nat → Nat) (s s' : Nat → Bool) (j : Nat)
    (hj : j < 9) (ht : ∀ r, r < 9 → t' r = t (8 - r))
    (hs : ∀ r, s r = false) (hs' : ∀ r, s' r = false) :
    wallDangerRank t s j = wallDangerRank t' s' (8 - j) := by
  unfold wallDangerRank
  rw [safeDncPass_false t s j hs, safeDncPass_false t' s' (8 - j) hs',
    dncPass_mirror t t' j hj ht, ncPass_mirror t t' j hj ht,
    ocPass_mirror t t' j hj ht]

/-- Reading an all-false safe vector gives false at every index. -/
theorem replicate_false_getD (i : Nat) :
    (List.replicate 34 false).getD i false = false := by
  rcases Nat.lt_or_ge i 34 with h | h
  · rw [List.getD_eq_getElem _ _ (by simpa using h)]
    exact List.getElem_replicate ..
  · rw [List.getD_eq_default _ _ (by simpa using h)]

/-- Access to the suit-mirrored count vector. -/
theorem tget_mirrorSuits (tiles : List Nat) (k r : Nat) (hk : k < 3) (hr : r < 9) :
    tget (mirrorSuits tiles) (9 * k + r) = tget tiles (9 * k + (8 - r)) := by
  have hidx : 9 * k + r < 34 := by omega
  unfold mirrorSuits tget
  rw [List.getD_eq_getElem _ _ (by simpa using hidx)]
  simp only [List.getElem_map, List.getElem_range]
  rw [if_pos (by omega : 9 * k + r < 27)]
  have h1 : (9 * k + r) / 9 = k := by omega
  have h2 : (9 * k + r) % 9 = r := by omega
  rw [h1, h2]

/-- C7: with no accumulated safe tiles, the wall-danger classification of
suit tile 9k+n under an unseen-count vector equals the classification of
tile 9k+(8-n) under the within-suit mirrored vector. -/
theorem c7_wall_danger_mirror (tiles : List Nat) (k n : Nat) (hk : k < 3) (hn : n < 9) :
    calculateGeneralWallDangerAt tiles (9 * k + n)
      = calculateGeneralWallDangerAt (mirrorSuits tiles) (9 * k + (8 - n)) := by
  unfold calculateGeneralWallDangerAt calculateWallDangerAt
  rw [if_pos (by omega : 9 * k + n < 27), if_pos (by omega : 9 * k + (8 - n) < 27)]
  have hd1 : (9 * k + n) / 9 = k := by omega
  have hd2 : (9 * k + (8 - n)) / 9 = k := by omega
  have hm1 : (9 * k + n) % 9 = n := by omega
  have hm2 : (9 * k + (8 - n)) % 9 = 8 - n := by omega
  simp only [hd1, hd2, hm1, hm2]
  exact wallDangerRank_mirror
    (fun r => tget tiles (9 * k + r))
    (fun r => tget (mirrorSuits tiles) (9 * k + r))
    (fun r => (List.replicate 34 false).getD (9 * k + r) false)
    (fun r => (List.replicate 34 false).getD (9 * k + r) false)
    n hn
    (fun r hr => tget_mirrorSuits tiles k r hk hr)
    (fun r => replicate_false_getD _)
    (fun r => replicate_false_getD _)

/-- C7 witness at the all-zero count vector, first suit, rank 1. -/
theorem c7_wall_danger_mirror_witness :
    ((0 : Nat) < 3 ∧ (0 : Nat) < 9)
    ∧ calculateGeneralWallDangerAt (List.replicate 34 0) (9 * 0 + 0)
        = calculateGeneralWallDangerAt (mirrorSuits (List.replicate 34 0)) (9 * 0 + (8 - 0)) :=
  ⟨by omega, c7_wall_danger_mirror (List.replicate 34 0) 0 0 (by omega) (by omega)⟩


/-! ### C9: the expected-value engine restores its state -/

theorem set_getD_self {α : Type} (d : α) (l : List α) (i : Nat) (h : i < l.length) :
    l.set i (l.getD i d) = l := by
  rw [List.getD_eq_getElem l d h]
  exact List.ext_getElem (by simp) (fun j hj hj2 => by
    by_cases hij : i = j
    · subst hij; simp
    · rw [List.getElem_set_ne hij])

theorem set_dec_inc (l : List Int) (i : Nat) :
    (l.set i (iget l i - 1)).set i (iget (l.set i (iget l i - 1)) i + 1) = l := by
  rcases Nat.lt_or_ge i l.length with h | h
  · have hx : iget (l.set i (iget l i - 1)) i = iget l i - 1 := by
      unfold iget
      rw [List.getD_eq_getElem _ 0 (by simpa using h)]
      exact List.getElem_set_self _
    rw [hx, List.set_set]
    have h2 : iget l i - 1 + 1 = iget l i := by ring
    rw [h2]
    exact set_getD_self 0 l i h
  · rw [List.set_eq_of_length_le (by simpa using h), List.set_eq_of_length_le (by simpa using h)]

theorem set_inc_dec (l : List Int) (i : Nat) :
    (l.set i (iget l i + 1)).set i (iget (l.set i (iget l i + 1)) i - 1) = l := by
  rcases Nat.lt_or_ge i l.length with h | h
  · have hx : iget (l.set i (iget l i + 1)) i = iget l i + 1 := by
      unfold iget
      rw [List.getD_eq_getElem _ 0 (by simpa using h)]
      exact List.getElem_set_self _
    rw [hx, List.set_set]
    have h2 : iget l i + 1 - 1 = iget l i := by ring
    rw [h2]
    exact set_getD_self 0 l i h
  · rw [List.set_eq_of_length_le (by simpa using h), List.set_eq_of_length_le (by simpa using h)]

theorem bset_restore_true (l : List Bool) (i : Nat) (h : l.getD i false = true) :
    (l.set i false).set i true = l := by
  rcases Nat.lt_or_ge i l.length with hlen | hlen
  · rw [List.set_set, show (true : Bool) = l.getD i false from h.symm]
    exact set_getD_self false l i hlen
  · rw [List.set_eq_of_length_le (by simpa using hlen),
      List.set_eq_of_length_le (by simpa using hlen)]

theorem bset_restore_false (l : List Bool) (i : Nat) (h : l.getD i false = false) :
    (l.set i true).set i false = l := by
  rcases Nat.lt_or_ge i l.length with hlen | hlen
  · rw [List.set_set, show (false : Bool) = l.getD i false from h.symm]
    exact set_getD_self false l i hlen
  · rw [List.set_eq_of_length_le (by simpa using hlen),
      List.set_eq_of_length_le (by simpa using hlen)]

theorem undoDiscard_discard (s : SPState) (t : Nat)
    (h : isAkaT t = true → s.akas.getD (akaSuit t) false = true) :
    (s.discardT t).undoDiscardT t = s := by
  rcases s with ⟨te, ak, wall, ex⟩
  simp only [SPState.discardT, SPState.undoDiscardT]
  cases haka : isAkaT t
  · simp only [haka, Bool.false_eq_true, if_false, SPState.mk.injEq]
    exact ⟨set_dec_inc te (deakaT t), trivial, trivial, trivial⟩
  · simp only [haka, if_true, SPState.mk.injEq]
    exact ⟨set_dec_inc te (deakaT t), bset_restore_true ak (akaSuit t) (h haka), trivial, trivial⟩

theorem undoDeal_deal (s : SPState) (t : Nat)
    (h : isAkaT t = true → s.akas.getD (akaSuit t) false = false) :
    (s.dealT t).undoDealT t = s := by
  rcases s with ⟨te, ak, wall, ex⟩
  simp only [SPState.dealT, SPState.undoDealT]
  cases haka : isAkaT t
  · simp only [haka, Bool.false_eq_true, if_false, SPState.mk.injEq]
    exact ⟨set_inc_dec te (deakaT t), trivial, set_dec_inc wall (deakaT t), trivial⟩
  · simp only [haka, if_true, SPState.mk.injEq]
    exact ⟨set_inc_dec te (deakaT t), bset_restore_false ak (akaSuit t) (h haka),
      set_dec_inc wall (deakaT t), trivial⟩

theorem unbump_bump (s : SPState) : s.bumpExtra.unbumpExtra = s := by
  rcases s with ⟨te, ak, wall, ex⟩
  simp [SPState.bumpExtra, SPState.unbumpExtra]

theorem foldl_pair_first {β : Type} (s : SPState)
    (body : SPState × SPCaches → β → SPState × SPCaches) (l : List β)
    (c : SPCaches)
    (hb : ∀ c2 b, b ∈ l → (body (s, c2) b).1 = s) :
    l.foldl body (s, c) = (s, (l.foldl body (s, c)).2) := by
  induction l generalizing c with
  | nil => rfl
  | cons hd tl ihl =>
    have h1 : (body (s, c) hd).1 = s := hb c hd (List.mem_cons_self hd tl)
    have h2 : body (s, c) hd = (s, (body (s, c) hd).2) := Prod.ext h1 rfl
    rw [List.foldl_cons, h2]
    exact ihl _ (fun c2 b hm => hb c2 b (List.mem_cons_of_mem hd hm))

theorem spRestoreAll (o : SPOracles)
    (hd : ∀ s (td : Nat × Int), td ∈ o.getDiscardTiles s →
      isAkaT td.1 = true → s.akas.getD (akaSuit td.1) false = true)
    (hw : ∀ s (td : Nat × Int), td ∈ o.getDrawTiles s →
      isAkaT td.1 = true → s.akas.getD (akaSuit td.1) false = false) :
    ∀ fuel : Nat,
      (∀ sh s c, (drawF fuel o sh s c).1 = s)
      ∧ (∀ sh s c, (drawTegawariSlowF fuel o sh s c).1 = s)
      ∧ (∀ sh s c, (drawNoTegawariSlowF fuel o sh s c).1 = s)
      ∧ (∀ sh s c, (discardF fuel o sh s c).1 = s)
      ∧ (∀ sh s c, (discardSlowF fuel o sh s c).1 = s) := by
  intro fl
  induction fl with
  | zero =>
    refine ⟨?_, ?_, ?_, ?_, ?_⟩ <;> exact fun _ s _ => rfl
  | succ n ih =>
    obtain ⟨ihDraw, ihTega, ihNoTega, ihDis, ihDisSlow⟩ := ih
    refine ⟨?_, ?_, ?_, ?_, ?_⟩
    · intro sh s c
      simp only [drawF]
      split_ifs <;> first | rfl | exact ihTega sh s c | exact ihNoTega sh s c
    · intro sh s c
      simp only [drawTegawariSlowF]
      rw [foldl_pair_first s]
      rw [foldl_pair_first s]
      · intro c2 td hm
        dsimp only
        split_ifs with h1
        · rfl
        · dsimp only
          rw [ihDis sh ((s.dealT td.1).bumpExtra) c2, unbump_bump]
          exact undoDeal_deal s td.1 (hw s td hm)
      · intro c2 td hm
        dsimp only
        split_ifs with h1 h2
        · rfl
        · dsimp only
          rw [ihDis (sh - 1) (s.dealT td.1) c2]
          exact undoDeal_deal s td.1 (hw s td hm)
        · dsimp only
          exact undoDeal_deal s td.1 (hw s td hm)
    · intro sh s c
      simp only [drawNoTegawariSlowF]
      rw [foldl_pair_first s]
      intro c2 td hm
      dsimp only
      split_ifs with h1 h2
      · rfl
      · dsimp only
        rw [ihDis (sh - 1) (s.dealT td.1) c2]
        exact undoDeal_deal s td.1 (hw s td hm)
      · dsimp only
        exact undoDeal_deal s td.1 (hw s td hm)
    · intro sh s c
      simp only [discardF]
      split_ifs with h1
      · rfl
      · exact ihDisSlow sh s c
    · intro sh s c
      simp only [discardSlowF]
      rw [foldl_pair_first s]
      intro c2 td hm
      dsimp only
      split_ifs with h1 h2
      · dsimp only
        rw [ihDraw sh (s.discardT td.1) c2]
        exact undoDiscard_discard s td.1 (hd s td hm)
      · dsimp only
        rw [ihDraw (sh + 1) ((s.discardT td.1).bumpExtra) c2, unbump_bump]
        exact undoDiscard_discard s td.1 (hd s td hm)
      · rfl

/-- C9: the EV exploration restores the hand state: for oracles whose
candidate tiles are red-five-consistent with the state they are offered in,
`analyze_discard`, `discard_slow`, `draw_with_tegawari_slow` and
`draw_without_tegawari_slow` return the hand-state record (tile counts,
akas, wall counts, `n_extra_tsumo`) exactly as it was at entry, at every
recursion depth, every shanten level and every cache content. -/
theorem c9_ev_state_restored (o : SPOracles)
    (hd : ∀ s (td : Nat × Int), td ∈ o.getDiscardTiles s →
      isAkaT td.1 = true → s.akas.getD (akaSuit td.1) false = true)
    (hw : ∀ s (td : Nat × Int), td ∈ o.getDrawTiles s →
      isAkaT td.1 = true → s.akas.getD (akaSuit td.1) false = false)
    (fuel : Nat) (sh : Int) (s : SPState) (c : SPCaches) :
    (analyzeDiscardF fuel o sh s c).1 = s
    ∧ (discardSlowF fuel o sh s c).1 = s
    ∧ (drawTegawariSlowF fuel o sh s c).1 = s
    ∧ (drawNoTegawariSlowF fuel o sh s c).1 = s := by
  obtain ⟨ihDraw, ihTega, ihNoTega, _, ihDisSlow⟩ := spRestoreAll o hd hw fuel
  refine ⟨?_, ihDisSlow sh s c, ihTega sh s c, ihNoTega sh s c⟩
  simp only [analyzeDiscardF]
  rw [foldl_pair_first s]
  intro c2 td hm
  dsimp only
  split_ifs with h1 h2
  · dsimp only
    rw [ihDraw sh (s.discardT td.1) c2]
    exact undoDiscard_discard s td.1 (hd s td hm)
  · dsimp only
    rw [ihDraw (sh + 1) ((s.discardT td.1).bumpExtra) c2, unbump_bump]
    exact undoDiscard_discard s td.1 (hd s td hm)
  · rfl

/-- Witness: the restoration theorem applied to the empty-candidate oracles
at a concrete state. -/
theorem c9_ev_state_restored_witness :
    (analyzeDiscardF 3 emptyOracles 1 spState0 ⟨[], []⟩).1 = spState0
    ∧ (discardSlowF 3 emptyOracles 1 spState0 ⟨[], []⟩).1 = spState0
    ∧ (drawTegawariSlowF 3 emptyOracles 1 spState0 ⟨[], []⟩).1 = spState0
    ∧ (drawNoTegawariSlowF 3 emptyOracles 1 spState0 ⟨[], []⟩).1 = spState0 :=
  c9_ev_state_restored emptyOracles
    (fun s td hm => absurd hm (by simp [emptyOracles]))
    (fun s td hm => absurd hm (by simp [emptyOracles]))
    3 1 spState0 ⟨[], []⟩

end Washizu
